import Mathlib

/-
Verification of the console registry and dispatch layer
(src/lib/ukconsole/console.c) and of the NS16550 UART driver's output path
(src/drivers/uktty/ns16550/ns16550.c).

Modelling conventions:
- A C buffer is a `List Nat` of byte values; a possibly-NULL buffer pointer is
  an `Option (List Nat)` (for output) or a `Bool` non-null marker (for input,
  where the caller's buffer contents are irrelevant and only filled bytes
  matter).
- A device's `out` capability is a function from buffer and length to the
  `__ssz` result; its `in` capability is a function from the requested length
  to the `__ssz` result together with the bytes it writes into the buffer.
  Either capability pointer may be NULL, hence `Option`.
- `__ssz` results are `Int`; `__sz` lengths are `Nat`; the `__u16` device
  counter is a `Nat` kept below 2 ^ 16 by reducing modulo 65536 at the
  increment, which is where 16-bit overflow matters.
- To observe which devices a dispatch call invokes (and with what arguments),
  each modelled operation also returns the list of invocation events in order:
  an event carries the device's name, which stands for the device's identity.
-/

set_option autoImplicit false

namespace UkConsole

/-- Carriage-return byte value. -/
def CR : Nat := 13

/-- Line-feed byte value. -/
def LF : Nat := 10

/-- The errno value EINVAL; the C code returns -EINVAL. -/
def EINVAL : Int := 22

/-- Modelled from the spec: the flag bitset holds IS_STDOUT and IS_STDIN.
The public header defining the numeric bit values is not among the sources,
so the two flags are modelled as the two distinct low bits; no claim depends
on the concrete values, only on the bits being distinct. -/
def UK_CONSOLE_FLAG_STDOUT : Nat := 1

/-- Modelled from the spec: the IS_STDIN flag bit, see UK_CONSOLE_FLAG_STDOUT. -/
def UK_CONSOLE_FLAG_STDIN : Nat := 2

/-- Device operations table (struct uk_console_ops): two independently
nullable capability functions. The field `inp` models the C member `in`,
which is a reserved word in Lean. A device's `out` receives the buffer and
the length and returns a signed count; its `in` receives the length and
returns a signed count together with the bytes it deposited in the buffer. -/
structure uk_console_ops where
  out : Option (List Nat → Nat → Int)
  inp : Option (Nat → Int × List Nat)

/-- A console device (struct uk_console): name, id (assigned at
registration), flag bitset, and a nullable pointer to its ops table.
The name is an abstract numeric identity standing for the C `char *name`. -/
structure uk_console where
  name : Nat
  id : Nat
  flags : Nat
  ops : Option uk_console_ops

/-- The `dev->ops->out` lookup: `none` when the ops pointer or the
capability pointer is NULL. -/
def devOut (d : uk_console) : Option (List Nat → Nat → Int) :=
  match d.ops with
  | none => none
  | some o => o.out

/-- The `dev->ops->in` lookup: `none` when the ops pointer or the
capability pointer is NULL. -/
def devIn (d : uk_console) : Option (Nat → Int × List Nat) :=
  match d.ops with
  | none => none
  | some o => o.inp

/-- The registry state: the ordered device list `uk_console_device_list`,
the 16-bit counter `uk_console_device_count`, and the one-shot latch
`uk_console_set_standard_once`. -/
structure RegState where
  devices : List uk_console
  count : Nat
  set_standard_once : Bool

/-- The state at kernel start: empty list, zero count, latch unset. -/
def initState : RegState := ⟨[], 0, false⟩

/-- uk_console_count: returns the current device counter. -/
def uk_console_count (st : RegState) : Nat :=
  st.count

/-- uk_console_register: if the device has any flags set, the latch is set;
otherwise, if the latch is still unset and the device has neither standard
flag, the latch is set and the device is promoted to carry both standard
flags. The device is then appended to the list and assigned the current
counter value as id, and the 16-bit counter is incremented. -/
def uk_console_register (st : RegState) (dev : uk_console) : RegState :=
  let once1 := st.set_standard_once || decide (dev.flags ≠ 0)
  let promote := !once1 &&
    decide (dev.flags &&& (UK_CONSOLE_FLAG_STDOUT ||| UK_CONSOLE_FLAG_STDIN) = 0)
  let newFlags :=
    if promote then dev.flags ||| (UK_CONSOLE_FLAG_STDOUT ||| UK_CONSOLE_FLAG_STDIN)
    else dev.flags
  { devices := st.devices ++ [{ dev with flags := newFlags, id := st.count }],
    count := (st.count + 1) % 65536,
    set_standard_once := once1 || promote }

/-- Registration of a sequence of devices, in order. -/
def registerAll (st : RegState) (l : List uk_console) : RegState :=
  l.foldl uk_console_register st

/-- An output invocation event: device name, buffer passed, length passed. -/
abbrev OutEvent := Nat × List Nat × Nat

/-- An input invocation event: device name and the length passed. -/
abbrev InEvent := Nat × Nat

/-- uk_console_out_direct: returns 0 on zero length; returns -EINVAL when
the buffer, the device, its ops pointer or its `out` capability is NULL;
otherwise invokes the device's `out` with the full buffer and length and
returns its result. The event list records the invocation, if any. -/
def uk_console_out_direct (dev : Option uk_console) (buf : Option (List Nat))
    (len : Nat) : Int × List OutEvent :=
  if len = 0 then (0, [])
  else
    match buf, dev with
    | some b, some d =>
      match d.ops with
      | some o =>
        match o.out with
        | some f => (f b len, [(d.name, b, len)])
        | none => (-EINVAL, [])
      | none => (-EINVAL, [])
    | _, _ => (-EINVAL, [])

/-- uk_console_in_direct: returns 0 on zero length; returns -EINVAL when
the buffer, the device, its ops pointer or its `in` capability is NULL;
otherwise invokes the device's `in` and returns its result together with
the bytes the device wrote. The event list records the invocation, if any. -/
def uk_console_in_direct (dev : Option uk_console) (bufOk : Bool)
    (len : Nat) : Int × List Nat × List InEvent :=
  if len = 0 then (0, [], [])
  else
    match bufOk, dev with
    | true, some d =>
      match d.ops with
      | some o =>
        match o.inp with
        | some f =>
          let r := f len
          (r.1, r.2, [(d.name, len)])
        | none => (-EINVAL, [], [])
      | none => (-EINVAL, [], [])
    | _, _ => (-EINVAL, [], [])

/-- The loop guard of uk_console_out: the device has the IS_STDOUT flag and
a present `out` capability. -/
def stdoutCapable (d : uk_console) : Bool :=
  decide (d.flags &&& UK_CONSOLE_FLAG_STDOUT ≠ 0) && (devOut d).isSome

/-- The loop guard of uk_console_in: the device has the IS_STDIN flag and a
present `in` capability. -/
def stdinCapable (d : uk_console) : Bool :=
  decide (d.flags &&& UK_CONSOLE_FLAG_STDIN ≠ 0) && (devIn d).isSome

/-- The broadcast loop of uk_console_out: every device whose flags include
IS_STDOUT and whose `out` capability is present is invoked with the full
buffer and length through uk_console_out_direct; per-device results are
discarded. Returns the invocation events in list order. -/
def uk_console_out_loop (devs : List uk_console) (b : List Nat) (len : Nat) :
    List OutEvent :=
  match devs with
  | [] => []
  | d :: rest =>
    if stdoutCapable d then
      (uk_console_out_direct (some d) (some b) len).2 ++
        uk_console_out_loop rest b len
    else uk_console_out_loop rest b len

/-- uk_console_out: returns 0 on zero length, -EINVAL on a NULL buffer,
and otherwise broadcasts to every stdout-capable device and returns the
full length. -/
def uk_console_out (st : RegState) (buf : Option (List Nat)) (len : Nat) :
    Int × List OutEvent :=
  if len = 0 then (0, [])
  else
    match buf with
    | none => (-EINVAL, [])
    | some b => ((len : Int), uk_console_out_loop st.devices b len)

/-- The aggregation loop of uk_console_in: walks the device list with the
current `leftover` count; every device whose flags include IS_STDIN and
whose `in` capability is present is invoked through uk_console_in_direct
with the remaining length; a result rc is accounted (leftover decreases by
rc, the buffer pointer advances) only when 0 ≤ rc and rc ≤ leftover; the
walk stops early when leftover reaches 0. Returns the final leftover, the
bytes accepted into the buffer, and the invocation events. -/
def uk_console_in_loop (devs : List uk_console) (leftover : Nat) :
    Nat × List Nat × List InEvent :=
  match devs with
  | [] => (leftover, [], [])
  | d :: rest =>
    if stdinCapable d then
      let r := uk_console_in_direct (some d) true leftover
      let accepted := decide (0 ≤ r.1) && decide (r.1.toNat ≤ leftover)
      let leftover2 := if accepted then leftover - r.1.toNat else leftover
      let chunk := if accepted then r.2.1.take r.1.toNat else []
      if leftover2 = 0 then (0, chunk, r.2.2)
      else
        let s := uk_console_in_loop rest leftover2
        (s.1, chunk ++ s.2.1, r.2.2 ++ s.2.2)
    else uk_console_in_loop rest leftover

/-- uk_console_in: returns 0 on zero length, -EINVAL on a NULL buffer, and
otherwise aggregates input from the stdin-capable devices in registration
order and returns the number of bytes accepted (len - leftover), the bytes
accepted, and the invocation events. -/
def uk_console_in (st : RegState) (bufOk : Bool) (len : Nat) :
    Int × List Nat × List InEvent :=
  if len = 0 then (0, [], [])
  else if bufOk then
    let r := uk_console_in_loop st.devices len
    (((len - r.1 : Nat) : Int), r.2.1, r.2.2)
  else (-EINVAL, [], [])

/-- ns16550_putc: the bytes a single call emits on the wire. A line feed is
preceded by an emitted carriage return; every byte is then emitted as is
(through the blocking single-unit transmit _putc). -/
def ns16550_putc (a : Nat) : List Nat :=
  if a = LF then [CR, a] else [a]

/-- The transmit loop of ns16550_out: emits each buffer byte in order
through ns16550_putc and concatenates the emitted wire bytes. -/
def ns16550_out_loop : List Nat → List Nat
  | [] => []
  | a :: rest => ns16550_putc a ++ ns16550_out_loop rest

/-- ns16550_out: transmits the whole buffer through the transmit loop and
returns the input length. The first component is the emitted wire stream,
the second the returned count. -/
def ns16550_out (buf : List Nat) : List Nat × Nat :=
  (ns16550_out_loop buf, buf.length)

/-! Helper lemmas about the direct operations and the dispatch loops. -/

theorem out_direct_eq (d : uk_console) (b : List Nat) (len : Nat)
    (hlen : len ≠ 0) (f : List Nat → Nat → Int) (hf : devOut d = some f) :
    uk_console_out_direct (some d) (some b) len = (f b len, [(d.name, b, len)]) := by
  unfold devOut at hf
  cases hops : d.ops with
  | none => rw [hops] at hf; cases hf
  | some o =>
    rw [hops] at hf
    change o.out = some f at hf
    cases hout : o.out with
    | none => rw [hout] at hf; cases hf
    | some g =>
      rw [hout] at hf
      cases hf
      simp [uk_console_out_direct, hlen, hops, hout]

theorem in_direct_eq (d : uk_console) (len : Nat) (hlen : len ≠ 0)
    (f : Nat → Int × List Nat) (hf : devIn d = some f) :
    uk_console_in_direct (some d) true len =
      ((f len).1, (f len).2, [(d.name, len)]) := by
  unfold devIn at hf
  cases hops : d.ops with
  | none => rw [hops] at hf; cases hf
  | some o =>
    rw [hops] at hf
    change o.inp = some f at hf
    cases hinp : o.inp with
    | none => rw [hinp] at hf; cases hf
    | some g =>
      rw [hinp] at hf
      cases hf
      simp [uk_console_in_direct, hlen, hops, hinp]

theorem out_loop_eq (devs : List uk_console) (b : List Nat) (len : Nat)
    (hlen : len ≠ 0) :
    uk_console_out_loop devs b len =
      (devs.filter stdoutCapable).map (fun d => (d.name, b, len)) := by
  induction devs with
  | nil => rfl
  | cons d rest ih =>
    by_cases h : stdoutCapable d = true
    · obtain ⟨f, hf⟩ := Option.isSome_iff_exists.mp (by
        have := h
        unfold stdoutCapable at this
        exact (Bool.and_eq_true _ _).mp this |>.2)
      rw [uk_console_out_loop, if_pos h, out_direct_eq d b len hlen f hf,
        List.filter_cons_of_pos h, List.map_cons, ih]
      rfl
    · rw [uk_console_out_loop, if_neg h,
        List.filter_cons_of_neg (by simpa using h), ih]

/-! Concrete devices and registry states used by the witnesses and
counterexamples. -/

/-- A stdout device whose out reports partial acceptance (1 byte). -/
def outDevA : uk_console :=
  ⟨0, 0, UK_CONSOLE_FLAG_STDOUT, some ⟨some (fun _ _ => 1), none⟩⟩

/-- A stdout device whose out reports accepting nothing. -/
def outDevB : uk_console :=
  ⟨1, 0, UK_CONSOLE_FLAG_STDOUT, some ⟨some (fun _ _ => 0), none⟩⟩

/-- Registry with the two stdout devices registered in order A, B. -/
def stOut : RegState := registerAll initState [outDevA, outDevB]

/-- Claim C2: for write_broadcast with a non-null buffer and nonzero length,
the full buffer is delivered exactly once to every registered device that
has the IS_STDOUT flag and a non-null out capability, in registration order;
each device's returned count is discarded and the call returns exactly the
length unconditionally. -/
theorem c2_out_broadcast (st : RegState) (b : List Nat) (len : Nat)
    (hlen : len ≠ 0) :
    (uk_console_out st (some b) len).1 = (len : Int) ∧
    (uk_console_out st (some b) len).2 =
      (st.devices.filter stdoutCapable).map (fun d => (d.name, b, len)) := by
  unfold uk_console_out
  rw [if_neg hlen]
  exact ⟨rfl, out_loop_eq st.devices b len hlen⟩

/-- Witness for C2: the spec scenario with devices A, B and buffer "hi\n";
both devices receive the full buffer, in order, and the call returns 3
although A accepted 1 byte and B accepted 0. -/
theorem c2_out_broadcast_witness :
    (uk_console_out stOut (some [104, 105, 10]) 3).1 = (3 : Int) ∧
    (uk_console_out stOut (some [104, 105, 10]) 3).2 =
      [(0, [104, 105, 10], 3), (1, [104, 105, 10], 3)] := by
  have h := c2_out_broadcast stOut [104, 105, 10] 3 (by decide)
  exact ⟨h.1, h.2.trans (by rfl)⟩

/-- Claim C6: write_broadcast with length 0 returns 0 invoking no device,
and with a null buffer and length 5 returns -EINVAL invoking no device. -/
theorem c6_out_arg_checks (st : RegState) (buf : Option (List Nat)) :
    uk_console_out st buf 0 = (0, []) ∧
    uk_console_out st none 5 = (-EINVAL, []) :=
  ⟨rfl, rfl⟩

/-- Claim C9: in all four public operations the zero-length check precedes
argument validation: length 0 returns 0 with no device invoked even when
the buffer or the device reference is null. -/
theorem c9_zero_length_first (st : RegState) (buf : Option (List Nat))
    (bufOk : Bool) (dev : Option uk_console) :
    uk_console_out st buf 0 = (0, []) ∧
    uk_console_in st bufOk 0 = (0, [], []) ∧
    uk_console_out_direct dev buf 0 = (0, []) ∧
    uk_console_in_direct dev bufOk 0 = (0, [], []) :=
  ⟨rfl, rfl, rfl, rfl⟩

/-- An invalid direct-output device reference: a null device, a null ops
pointer, or a null out capability. -/
def outRefInvalid (dev : Option uk_console) : Bool :=
  match dev with
  | none => true
  | some d => (devOut d).isNone

/-- An invalid direct-input device reference: a null device, a null ops
pointer, or a null in capability. -/
def inRefInvalid (dev : Option uk_console) : Bool :=
  match dev with
  | none => true
  | some d => (devIn d).isNone

/-- A device that is never registered anywhere but has a valid ops table
with an out capability returning 3. -/
def unregDev : uk_console :=
  ⟨7, 0, UK_CONSOLE_FLAG_STDOUT, some ⟨some (fun _ _ => 3), none⟩⟩

/-- Counterexample to C7: the claim says a direct write targeting a device
that is not registered in the registry returns an invalid-argument error
without invoking any device function. In the initial registry state no
device is registered, yet uk_console_out_direct on unregDev invokes its out
capability and returns its result 3 rather than -EINVAL: the code never
consults the registry in the direct paths. -/
theorem c7_counterexample :
    initState.devices = [] ∧
    uk_console_out_direct (some unregDev) (some [65]) 1 =
      (3, [(7, [65], 1)]) ∧
    (3 : Int) ≠ -EINVAL :=
  ⟨rfl, rfl, by decide⟩

/-- Claim C7 amended: for the direct operations with nonzero length, an
invalid-argument error is returned immediately, with no device function
invoked, exactly when the buffer is null or the device reference is invalid
(null device, null ops, or the requested capability missing); whether the
device is registered in the registry is not checked. -/
theorem c7_amended_direct_einval (dev : Option uk_console)
    (buf : Option (List Nat)) (bufOk : Bool) (len : Nat) (hlen : len ≠ 0) :
    (uk_console_out_direct dev buf len = (-EINVAL, []) ↔
      (buf.isNone || outRefInvalid dev) = true) ∧
    (uk_console_in_direct dev bufOk len = (-EINVAL, [], []) ↔
      (!bufOk || inRefInvalid dev) = true) := by
  constructor
  · cases buf with
    | none => simp [uk_console_out_direct, hlen]
    | some b =>
      cases dev with
      | none => simp [uk_console_out_direct, hlen, outRefInvalid]
      | some d =>
        cases hops : d.ops with
        | none =>
          simp [uk_console_out_direct, hlen, outRefInvalid, devOut, hops]
        | some o =>
          cases hout : o.out with
          | none =>
            simp [uk_console_out_direct, hlen, outRefInvalid, devOut, hops,
              hout]
          | some f =>
            simp [uk_console_out_direct, hlen, outRefInvalid, devOut, hops,
              hout]
  · cases bufOk with
    | false => simp [uk_console_in_direct, hlen]
    | true =>
      cases dev with
      | none => simp [uk_console_in_direct, hlen, inRefInvalid]
      | some d =>
        cases hops : d.ops with
        | none =>
          simp [uk_console_in_direct, hlen, inRefInvalid, devIn, hops]
        | some o =>
          cases hinp : o.inp with
          | none =>
            simp [uk_console_in_direct, hlen, inRefInvalid, devIn, hops,
              hinp]
          | some f =>
            simp [uk_console_in_direct, hlen, inRefInvalid, devIn, hops,
              hinp]

/-- Witness for C7 amended, at a null output buffer and a null input
buffer with the valid device unregDev and length 2. -/
theorem c7_amended_direct_einval_witness :
    (uk_console_out_direct (some unregDev) none 2 = (-EINVAL, []) ↔
      ((none : Option (List Nat)).isNone || outRefInvalid (some unregDev))
        = true) ∧
    (uk_console_in_direct (some unregDev) false 2 = (-EINVAL, [], []) ↔
      (!false || inRefInvalid (some unregDev)) = true) :=
  c7_amended_direct_einval (some unregDev) none false 2 (by decide)

/-- If the head device is stdin-capable but its result is rejected by the
accounting guard (negative, or claiming more than leftover), the loop
records its invocation, accepts nothing from it, and continues with the
remaining devices at an unchanged leftover. -/
theorem in_loop_head_rejected (d : uk_console) (rest : List uk_console)
    (lf : Nat) (hlf : lf ≠ 0) (f : Nat → Int × List Nat)
    (hflag : d.flags &&& UK_CONSOLE_FLAG_STDIN ≠ 0) (hf : devIn d = some f)
    (hrej : (decide (0 ≤ (f lf).1) && decide ((f lf).1.toNat ≤ lf)) = false) :
    uk_console_in_loop (d :: rest) lf =
      ((uk_console_in_loop rest lf).1,
       (uk_console_in_loop rest lf).2.1,
       (d.name, lf) :: (uk_console_in_loop rest lf).2.2) := by
  have hcap : stdinCapable d = true := by
    unfold stdinCapable
    rw [hf]
    simp [hflag]
  rw [uk_console_in_loop, if_pos hcap, in_direct_eq d lf hlf f hf]
  simp only [hrej, if_neg hlf, Bool.false_eq_true, if_false]
  simp

/-- A stdin device whose in always fails with -5. -/
def negDevA : uk_console :=
  ⟨0, 0, UK_CONSOLE_FLAG_STDIN, some ⟨none, some (fun _ => (-5, []))⟩⟩

/-- A stdin device with one byte of data. -/
def negDevB : uk_console :=
  ⟨1, 0, UK_CONSOLE_FLAG_STDIN, some ⟨none, some (fun _ => (1, [99]))⟩⟩

/-- Registry with negDevA then negDevB registered. -/
def stNeg : RegState := registerAll initState [negDevA, negDevB]

/-- Counterexample to C1: the claim says a negative result from a device's
in call aborts the aggregate read, so that no later stdin device is invoked
and the count collected so far (0) is returned. Here device A (name 0)
returns -5, yet device B (name 1) is still invoked afterwards — both
invocation events are present — and the call returns 1, B's byte. -/
theorem c1_counterexample :
    uk_console_in stNeg true 4 = (1, [99], [(0, 4), (1, 4)]) := rfl

/-- Claim C1 amended: a negative result from a stdin device's in call is
ignored rather than aborting the aggregate read: the device contributes no
bytes, and iteration continues with the subsequently registered devices,
whose contributions are accumulated and returned as usual. -/
theorem c1_amended_negative_continues (d : uk_console)
    (rest : List uk_console) (c1 c2 : Nat) (o1 o2 : Bool) (len : Nat)
    (hlen : len ≠ 0) (hflag : d.flags &&& UK_CONSOLE_FLAG_STDIN ≠ 0)
    (f : Nat → Int × List Nat) (hf : devIn d = some f)
    (hneg : (f len).1 < 0) :
    uk_console_in ⟨d :: rest, c1, o1⟩ true len =
      ((uk_console_in ⟨rest, c2, o2⟩ true len).1,
       (uk_console_in ⟨rest, c2, o2⟩ true len).2.1,
       (d.name, len) :: (uk_console_in ⟨rest, c2, o2⟩ true len).2.2) := by
  have hrej : (decide (0 ≤ (f len).1) &&
      decide ((f len).1.toNat ≤ len)) = false := by
    have : ¬(0 ≤ (f len).1) := by omega
    simp [this]
  unfold uk_console_in
  rw [if_neg hlen, if_neg hlen]
  rw [in_loop_head_rejected d rest len hlen f hflag hf hrej]
  simp

/-- Witness for C1 amended: with device A returning -5 ahead of device B,
the aggregate over both equals the aggregate over B alone, with A's
invocation event prepended. -/
theorem c1_amended_negative_continues_witness :
    uk_console_in ⟨[negDevA, negDevB], 0, false⟩ true 4 =
      ((uk_console_in ⟨[negDevB], 0, false⟩ true 4).1,
       (uk_console_in ⟨[negDevB], 0, false⟩ true 4).2.1,
       (0, 4) :: (uk_console_in ⟨[negDevB], 0, false⟩ true 4).2.2) :=
  c1_amended_negative_continues negDevA [negDevB] 0 0 false false 4
    (by decide) (by decide) (fun _ => (-5, [])) rfl (by decide)

/-- The final leftover of the aggregation loop never exceeds the initial
leftover: the loop only ever subtracts accepted counts. -/
theorem in_loop_leftover_le (devs : List uk_console) (lf : Nat) :
    (uk_console_in_loop devs lf).1 ≤ lf := by
  induction devs generalizing lf with
  | nil => exact Nat.le_refl lf
  | cons d rest ih =>
    simp only [uk_console_in_loop]
    by_cases hg : stdinCapable d = true
    · simp only [hg, if_true]
      split_ifs with h1 h2
      · exact Nat.zero_le lf
      · exact le_trans (ih _) (Nat.sub_le lf _)
      · exact Nat.zero_le lf
      · exact ih lf
    · simp only [hg, if_false]
      exact ih lf

/-- Claim C10: for a non-null buffer and nonzero length, read_aggregate
always returns a value between 0 and the length inclusive — never a
negative error — regardless of what each device's in returns; and a head
device whose result is negative or claims more than the requested length
contributes zero bytes to the total. -/
theorem c10_in_result_bounded (st : RegState) (len : Nat) (hlen : len ≠ 0) :
    (0 ≤ (uk_console_in st true len).1 ∧
      (uk_console_in st true len).1 ≤ (len : Int)) ∧
    (∀ (d : uk_console) (rest : List uk_console) (c : Nat) (o : Bool),
      st.devices = d :: rest →
      d.flags &&& UK_CONSOLE_FLAG_STDIN ≠ 0 →
      ∀ f, devIn d = some f →
        ¬(0 ≤ (f len).1 ∧ (f len).1.toNat ≤ len) →
        (uk_console_in st true len).1 =
          (uk_console_in ⟨rest, c, o⟩ true len).1) := by
  constructor
  · constructor
    · unfold uk_console_in
      rw [if_neg hlen]
      exact Int.natCast_nonneg _
    · unfold uk_console_in
      rw [if_neg hlen]
      show ((len - (uk_console_in_loop st.devices len).1 : Nat) : Int) ≤ len
      exact_mod_cast Nat.sub_le len _
  · intro d rest c o hdev hflag f hf hrej
    have hb : (decide (0 ≤ (f len).1) &&
        decide ((f len).1.toNat ≤ len)) = false := by
      rcases Decidable.em (0 ≤ (f len).1) with h0 | h0
      · rcases Decidable.em ((f len).1.toNat ≤ len) with h1 | h1
        · exact absurd ⟨h0, h1⟩ hrej
        · simp [h1]
      · simp [h0]
    unfold uk_console_in
    rw [if_neg hlen, if_neg hlen, hdev,
      in_loop_head_rejected d rest len hlen f hflag hf hb]
    rfl

/-- Witness for C10 at the registry with negDevA (whose in returns -5)
followed by negDevB and length 4. -/
theorem c10_in_result_bounded_witness :
    ((0 ≤ (uk_console_in stNeg true 4).1 ∧
      (uk_console_in stNeg true 4).1 ≤ ((4 : Nat) : Int)) ∧
     (∀ (d : uk_console) (rest : List uk_console) (c : Nat) (o : Bool),
       stNeg.devices = d :: rest →
       d.flags &&& UK_CONSOLE_FLAG_STDIN ≠ 0 →
       ∀ f, devIn d = some f →
         ¬(0 ≤ (f 4).1 ∧ (f 4).1.toNat ≤ 4) →
         (uk_console_in stNeg true 4).1 =
           (uk_console_in ⟨rest, c, o⟩ true 4).1)) :=
  c10_in_result_bounded stNeg 4 (by decide)

/-- A device behaves well at request size m when its in capability (if
present) returns a non-negative count, at most m, and writes exactly that
many bytes into the buffer. -/
def devOkAt (d : uk_console) (m : Nat) : Bool :=
  match devIn d with
  | none => true
  | some f =>
    decide (0 ≤ (f m).1) && decide ((f m).1.toNat ≤ m) &&
      decide ((f m).2.length = (f m).1.toNat)

/-- A device behaves well at every nonzero request size up to len. -/
def wellBehavedUpTo (len : Nat) (d : uk_console) : Bool :=
  (List.range len).all (fun i => devOkAt d (i + 1))

theorem devOkAt_of_wb (d : uk_console) (len m : Nat)
    (h : wellBehavedUpTo len d = true) (h0 : m ≠ 0) (h1 : m ≤ len) :
    devOkAt d m = true := by
  have hm := (List.all_eq_true.mp h) (m - 1) (List.mem_range.mpr (by omega))
  have : m - 1 + 1 = m := by omega
  rwa [this] at hm

/-- When every device in the list behaves well up to len, the bytes the
aggregation loop accepts are exactly the leftover it consumes. -/
theorem in_loop_well_behaved (devs : List uk_console) (len : Nat) :
    ∀ lf : Nat, lf ≠ 0 → lf ≤ len →
    (∀ d ∈ devs, wellBehavedUpTo len d = true) →
    (uk_console_in_loop devs lf).2.1.length =
      lf - (uk_console_in_loop devs lf).1 := by
  induction devs with
  | nil => intro lf h0 h1 hwb; simp [uk_console_in_loop]
  | cons d rest ih =>
    intro lf h0 h1 hwb
    by_cases hg : stdinCapable d = true
    · obtain ⟨f, hf⟩ := Option.isSome_iff_exists.mp (by
        unfold stdinCapable at hg
        exact (Bool.and_eq_true _ _).mp hg |>.2)
      have hok : devOkAt d lf = true :=
        devOkAt_of_wb d len lf (hwb d (by simp)) h0 h1
      have hok2 : (0 ≤ (f lf).1) ∧ ((f lf).1.toNat ≤ lf) ∧
          ((f lf).2.length = (f lf).1.toNat) := by
        unfold devOkAt at hok
        rw [hf] at hok
        change (decide (0 ≤ (f lf).1) && decide ((f lf).1.toNat ≤ lf) &&
          decide ((f lf).2.length = (f lf).1.toNat)) = true at hok
        simpa [and_assoc] using hok
      have hacc : (decide (0 ≤ (f lf).1) &&
          decide ((f lf).1.toNat ≤ lf)) = true := by
        simp [hok2.1, hok2.2.1]
      rw [uk_console_in_loop, if_pos hg, in_direct_eq d lf h0 f hf]
      simp only [hacc, if_true]
      by_cases hz : lf - (f lf).1.toNat = 0
      · simp only [hz, if_pos]
        simp [List.length_take, hok2.2.2]
        omega
      · simp only [hz, if_false]
        have hrec := ih (lf - (f lf).1.toNat) hz (by omega)
          (fun e he => hwb e (by simp [he]))
        have hs1 := in_loop_leftover_le rest (lf - (f lf).1.toNat)
        simp [List.length_append, List.length_take, hok2.2.2, hrec]
        omega
    · rw [uk_console_in_loop, if_neg hg]
      exact ih lf h0 h1 (fun e he => hwb e (by simp [he]))

/-- A stdin device with 2 bytes available, the spec's device A with "ab". -/
def inDevA : uk_console :=
  ⟨0, 0, UK_CONSOLE_FLAG_STDIN,
    some ⟨none, some (fun m => (((min 2 m : Nat) : Int), [97, 98].take (min 2 m)))⟩⟩

/-- A stdin device with 5 bytes available, the spec's device B with
"cdefg". -/
def inDevB : uk_console :=
  ⟨1, 0, UK_CONSOLE_FLAG_STDIN,
    some ⟨none,
      some (fun m => (((min 5 m : Nat) : Int), [99, 100, 101, 102, 103].take (min 5 m)))⟩⟩

/-- Registry with the two stdin devices registered in order A, B. -/
def stAgg : RegState := registerAll initState [inDevA, inDevB]

/-- Claim C3: with well-behaved stdin devices, read_aggregate drains them
in registration order, each filling the remaining suffix of the buffer,
stops early once the buffer is full, and returns the total number of bytes
filled — 0 when no stdin device has data. Concretely, the spec scenario: A
with "ab" then B with "cdefg" and a 4-byte read yields 4 and "abcd", B
being invoked only for the remaining 2 bytes; and an empty registry with a
10-byte read yields 0, not an error. -/
theorem c3_in_aggregate :
    uk_console_in stAgg true 4 =
      (4, [97, 98, 99, 100], [(0, 4), (1, 2)]) ∧
    uk_console_in initState true 10 = (0, [], []) ∧
    (∀ (st : RegState) (len : Nat), len ≠ 0 →
      (∀ d ∈ st.devices, wellBehavedUpTo len d = true) →
      (uk_console_in st true len).1 =
        ((uk_console_in st true len).2.1.length : Int) ∧
      (uk_console_in st true len).1 ≤ (len : Int)) := by
  refine ⟨by rfl, by rfl, ?_⟩
  intro st len hlen hwb
  constructor
  · unfold uk_console_in
    rw [if_neg hlen]
    show ((len - (uk_console_in_loop st.devices len).1 : Nat) : Int) =
      (((uk_console_in_loop st.devices len).2.1.length : Nat) : Int)
    exact_mod_cast
      (in_loop_well_behaved st.devices len len hlen (Nat.le_refl len) hwb).symm
  · unfold uk_console_in
    rw [if_neg hlen]
    show ((len - (uk_console_in_loop st.devices len).1 : Nat) : Int) ≤ len
    exact_mod_cast Nat.sub_le len _

/-- Witness for C3's general conjunct at the concrete scenario registry and
length 4. -/
theorem c3_in_aggregate_witness :
    (uk_console_in stAgg true 4).1 =
      ((uk_console_in stAgg true 4).2.1.length : Int) ∧
    (uk_console_in stAgg true 4).1 ≤ ((4 : Nat) : Int) :=
  c3_in_aggregate.2.2 stAgg 4 (by decide) (by decide)

/-- Every registration leaves the one-shot latch set: either the device
carried flags, or the latch was already set, or the device was promoted
and the latch set along with it. -/
theorem register_latch_set (st : RegState) (d : uk_console) :
    (uk_console_register st d).set_standard_once = true := by
  unfold uk_console_register
  by_cases h : d.flags = 0
  · cases ho : st.set_standard_once <;> simp [h, ho]
  · simp [h]

/-- A state with the latch set keeps it set through any further
registrations. -/
theorem registerAll_latch_set (l : List uk_console) (st : RegState)
    (h : st.set_standard_once = true) :
    (registerAll st l).set_standard_once = true := by
  induction l generalizing st with
  | nil => exact h
  | cons d rest ih => exact ih (uk_console_register st d) (register_latch_set st d)

/-- Claim C4: a first registered device with zero flags is promoted to
carry both IS_STDIN and IS_STDOUT; after any registration the latch is
set, so every subsequently registered zero-flag device keeps zero flags;
in particular a first device registered with only IS_STDOUT prevents
promotion of a later zero-flag device. -/
theorem c4_flag_promotion :
    (∀ z : uk_console, z.flags = 0 →
      (uk_console_register initState z).devices.map (fun d => d.flags) =
        [UK_CONSOLE_FLAG_STDOUT ||| UK_CONSOLE_FLAG_STDIN]) ∧
    (∀ (d0 : uk_console) (ds : List uk_console),
      (registerAll initState (d0 :: ds)).set_standard_once = true) ∧
    (∀ st : RegState, st.set_standard_once = true →
      ∀ z : uk_console, z.flags = 0 →
      (uk_console_register st z).devices.map (fun d => d.flags) =
        st.devices.map (fun d => d.flags) ++ [0]) ∧
    (∀ a z : uk_console, a.flags = UK_CONSOLE_FLAG_STDOUT → z.flags = 0 →
      (registerAll initState [a, z]).devices.map (fun d => d.flags) =
        [UK_CONSOLE_FLAG_STDOUT, 0]) := by
  have hlatched : ∀ st : RegState, st.set_standard_once = true →
      ∀ z : uk_console, z.flags = 0 →
      (uk_console_register st z).devices =
        st.devices ++ [{ z with flags := 0, id := st.count }] := by
    intro st hst z hz
    unfold uk_console_register
    rw [hz, hst]
    rfl
  refine ⟨?_, ?_, ?_, ?_⟩
  · intro z hz
    unfold uk_console_register
    rw [hz]
    rfl
  · intro d0 ds
    exact registerAll_latch_set ds (uk_console_register initState d0)
      (register_latch_set initState d0)
  · intro st hst z hz
    rw [hlatched st hst z hz, List.map_append]
    rfl
  · intro a z ha hz
    show (uk_console_register (uk_console_register initState a) z).devices.map
      (fun d => d.flags) = [UK_CONSOLE_FLAG_STDOUT, 0]
    have hreg1 : uk_console_register initState a =
        ⟨[{ a with flags := UK_CONSOLE_FLAG_STDOUT, id := 0 }], 1, true⟩ := by
      unfold uk_console_register
      rw [ha]
      rfl
    rw [hlatched (uk_console_register initState a)
      (register_latch_set initState a) z hz, List.map_append, hreg1]
    rfl

/-- The zero-flag device used in the C4 witness. -/
def zeroDev : uk_console := ⟨5, 0, 0, some ⟨none, none⟩⟩

/-- The stdout-only device used in the C4 witness. -/
def stdoutOnlyDev : uk_console :=
  ⟨6, 0, UK_CONSOLE_FLAG_STDOUT, some ⟨some (fun _ _ => 0), none⟩⟩

/-- A registry state with the latch already set, used in the C4 witness. -/
def latchedSt : RegState := ⟨[], 3, true⟩

/-- Witness for C4 at concrete devices: zeroDev is promoted when first,
the latch is set after registering stdoutOnlyDev, a zero-flag device
registered into a latched state keeps zero flags, and the two-device
sequence stdout-only then zero-flag ends with flags 1 then 0. -/
theorem c4_flag_promotion_witness :
    ((uk_console_register initState zeroDev).devices.map (fun d => d.flags) =
      [UK_CONSOLE_FLAG_STDOUT ||| UK_CONSOLE_FLAG_STDIN]) ∧
    ((registerAll initState [stdoutOnlyDev, zeroDev]).set_standard_once = true) ∧
    ((uk_console_register latchedSt zeroDev).devices.map (fun d => d.flags) =
      latchedSt.devices.map (fun d => d.flags) ++ [0]) ∧
    ((registerAll initState [stdoutOnlyDev, zeroDev]).devices.map
      (fun d => d.flags) = [UK_CONSOLE_FLAG_STDOUT, 0]) :=
  ⟨c4_flag_promotion.1 zeroDev rfl,
   c4_flag_promotion.2.1 stdoutOnlyDev [zeroDev],
   c4_flag_promotion.2.2.1 latchedSt rfl zeroDev rfl,
   c4_flag_promotion.2.2.2 stdoutOnlyDev zeroDev rfl rfl⟩

theorem uk_console_count_eq (st : RegState) : uk_console_count st = st.count :=
  rfl

/-- The device counter after a sequence of registrations: the 16-bit
counter advances by the number of devices, modulo 65536. -/
theorem registerAll_count (l : List uk_console) (st : RegState)
    (h : st.count < 65536) :
    (registerAll st l).count = (st.count + l.length) % 65536 := by
  induction l generalizing st with
  | nil =>
    show st.count = (st.count + 0) % 65536
    rw [Nat.add_zero, Nat.mod_eq_of_lt h]
  | cons d rest ih =>
    show (registerAll (uk_console_register st d) rest).count = _
    rw [ih (uk_console_register st d) (Nat.mod_lt _ (by omega))]
    show ((st.count + 1) % 65536 + rest.length) % 65536 = _
    rw [Nat.mod_add_mod]
    congr 1
    simp only [List.length_cons]
    omega

/-- The ids assigned by a sequence of registrations, as long as the 16-bit
counter does not wrap: the previously assigned ids followed by the
consecutive values starting at the current counter. -/
theorem registerAll_ids (l : List uk_console) (st : RegState)
    (hc : st.count + l.length ≤ 65536) :
    (registerAll st l).devices.map (fun d => d.id) =
      st.devices.map (fun d => d.id) ++ List.range' st.count l.length := by
  induction l generalizing st with
  | nil => simp [registerAll]
  | cons d rest ih =>
    have hlen : st.count + (rest.length + 1) ≤ 65536 := by
      simpa using hc
    show (registerAll (uk_console_register st d) rest).devices.map _ = _
    rcases Nat.lt_or_ge (st.count + 1) 65536 with h1 | h1
    · have hmod : (uk_console_register st d).count = st.count + 1 := by
        show (st.count + 1) % 65536 = st.count + 1
        exact Nat.mod_eq_of_lt h1
      have hc2 : (uk_console_register st d).count + rest.length ≤ 65536 := by
        rw [hmod]; omega
      rw [ih (uk_console_register st d) hc2, hmod]
      show (st.devices ++ _).map _ ++ _ = _
      rw [List.map_append, List.append_assoc, List.length_cons,
        List.range'_succ st.count rest.length 1]
      rfl
    · have hrest : rest.length = 0 := by omega
      rw [List.length_eq_zero.mp hrest]
      show (st.devices ++ _).map (fun d => d.id) =
        st.devices.map (fun d => d.id) ++ List.range' st.count 1
      rw [List.map_append, List.range'_succ st.count 0 1]
      rfl

/-- Claim C5 amended: for every sequence of at most 65535 registrations of
distinct devices starting from the initial state, the ids assigned are
exactly 0..N-1 in registration order and the count equals the number of
devices registered so far after each registration. The bound is forced by
the 16-bit device counter, which wraps to 0 at the 65536th registration. -/
theorem c5_amended_ids_and_count (devs : List uk_console)
    (_hnodup : (devs.map (fun d => d.name)).Nodup)
    (hlen : devs.length ≤ 65535) :
    ∀ k, k ≤ devs.length →
      uk_console_count (registerAll initState (devs.take k)) = k ∧
      (registerAll initState (devs.take k)).devices.map (fun d => d.id) =
        List.range k := by
  intro k hk
  have htake : (devs.take k).length = k := by
    rw [List.length_take]
    omega
  constructor
  · show (registerAll initState (devs.take k)).count = k
    rw [registerAll_count (devs.take k) initState (by show 0 < 65536; omega),
      htake]
    show (0 + k) % 65536 = k
    rw [Nat.zero_add, Nat.mod_eq_of_lt (by omega)]
  · rw [registerAll_ids (devs.take k) initState
      (by show 0 + (devs.take k).length ≤ 65536; omega), htake]
    show [] ++ List.range' 0 k = List.range k
    rw [List.nil_append, List.range_eq_range' k]

/-- Distinct devices used in the C5 witness. -/
def wDevA : uk_console := ⟨10, 0, UK_CONSOLE_FLAG_STDOUT, some ⟨none, none⟩⟩

/-- Second distinct device used in the C5 witness. -/
def wDevB : uk_console := ⟨11, 0, UK_CONSOLE_FLAG_STDIN, some ⟨none, none⟩⟩

/-- Witness for C5 amended: two distinct devices, ids 0 and 1, counts 1
and 2 after each prefix. -/
theorem c5_amended_ids_and_count_witness :
    (uk_console_count (registerAll initState ([wDevA, wDevB].take 1)) = 1 ∧
      (registerAll initState ([wDevA, wDevB].take 1)).devices.map
        (fun d => d.id) = List.range 1) ∧
    (uk_console_count (registerAll initState ([wDevA, wDevB].take 2)) = 2 ∧
      (registerAll initState ([wDevA, wDevB].take 2)).devices.map
        (fun d => d.id) = List.range 2) :=
  ⟨c5_amended_ids_and_count [wDevA, wDevB] (by decide) (by decide) 1
    (by decide),
   c5_amended_ids_and_count [wDevA, wDevB] (by decide) (by decide) 2
    (by decide)⟩

/-- A family of pairwise distinct devices indexed by name. -/
def mkDev (i : Nat) : uk_console := ⟨i, 0, UK_CONSOLE_FLAG_STDOUT, some ⟨none, none⟩⟩

/-- The 65536 distinct devices of the C5 counterexample. -/
def manyDevs : List uk_console := (List.range 65536).map mkDev

/-- Counterexample to C5 as stated for every N: after registering 65536
pairwise distinct devices starting from the initial state, the device
count is 0, not 65536 — the 16-bit counter has wrapped, so count() does
not equal the number of devices registered so far. -/
theorem c5_counterexample :
    (manyDevs.map (fun d => d.name)).Nodup ∧
    manyDevs.length = 65536 ∧
    uk_console_count (registerAll initState manyDevs) = 0 ∧
    uk_console_count (registerAll initState manyDevs) ≠ manyDevs.length := by
  have hnames : manyDevs.map (fun d => d.name) = List.range 65536 := by
    show (List.map mkDev (List.range 65536)).map (fun d => d.name) = _
    rw [List.map_map]
    exact List.map_id' (List.range 65536)
  have hlen : manyDevs.length = 65536 := by
    show ((List.range 65536).map mkDev).length = 65536
    rw [List.length_map, List.length_range]
  have hcount : uk_console_count (registerAll initState manyDevs) = 0 := by
    rw [uk_console_count_eq,
      registerAll_count manyDevs initState (by show 0 < 65536; omega), hlen]
    show (0 + 65536) % 65536 = 0
    norm_num
  refine ⟨?_, hlen, hcount, ?_⟩
  · rw [hnames]
    exact List.nodup_range 65536
  · rw [hcount, hlen]
    omega

/-- Checks that every line-feed byte in a wire stream is immediately
preceded by a carriage-return byte. -/
def crBeforeLf : List Nat → Bool
  | [] => true
  | [a] => decide (a ≠ LF)
  | a :: b :: rest =>
    if a = LF then false
    else if b = LF then decide (a = CR) && crBeforeLf rest
    else crBeforeLf (b :: rest)

/-- Removes each carriage-return byte that immediately precedes a
line-feed byte, recovering the original buffer from the wire stream. -/
def untranslate : List Nat → List Nat
  | [] => []
  | [a] => [a]
  | a :: b :: rest =>
    if a = CR ∧ b = LF then b :: untranslate rest
    else a :: untranslate (b :: rest)

/-- The wire stream of the transmit loop never starts with a line feed:
a line feed is always emitted behind its carriage return. -/
theorem out_loop_head_ne_lf (l : List Nat) :
    ns16550_out_loop l = [] ∨
    ∃ b t, ns16550_out_loop l = b :: t ∧ b ≠ LF := by
  cases l with
  | nil => exact Or.inl rfl
  | cons a rest =>
    right
    by_cases h : a = LF
    · exact ⟨CR, a :: ns16550_out_loop rest,
        by simp [ns16550_out_loop, ns16550_putc, h], by decide⟩
    · exact ⟨a, ns16550_out_loop rest,
        by simp [ns16550_out_loop, ns16550_putc, h], h⟩

/-- Every line feed emitted by the transmit loop is immediately preceded
by a carriage return. -/
theorem out_loop_crBeforeLf (l : List Nat) :
    crBeforeLf (ns16550_out_loop l) = true := by
  induction l with
  | nil => rfl
  | cons a rest ih =>
    by_cases h : a = LF
    · have : ns16550_out_loop (a :: rest) = CR :: LF :: ns16550_out_loop rest := by
        simp [ns16550_out_loop, ns16550_putc, h]
      rw [this]
      show (if CR = LF then false
        else if LF = LF then decide (CR = CR) && crBeforeLf (ns16550_out_loop rest)
        else crBeforeLf (LF :: ns16550_out_loop rest)) = true
      rw [if_neg (by decide), if_pos rfl, ih]
      rfl
    · have hl : ns16550_out_loop (a :: rest) = a :: ns16550_out_loop rest := by
        simp [ns16550_out_loop, ns16550_putc, h]
      rw [hl]
      rcases out_loop_head_ne_lf rest with he | ⟨b, t, hbt, hb⟩
      · rw [he]
        show decide (a ≠ LF) = true
        simpa using h
      · rw [hbt]
        show (if a = LF then false
          else if b = LF then decide (a = CR) && crBeforeLf t
          else crBeforeLf (b :: t)) = true
        rw [if_neg h, if_neg hb, ← hbt, ih]

/-- Removing the inserted carriage returns from the wire stream recovers
the transmitted buffer unchanged and in order. -/
theorem out_loop_untranslate (l : List Nat) :
    untranslate (ns16550_out_loop l) = l := by
  induction l with
  | nil => rfl
  | cons a rest ih =>
    by_cases h : a = LF
    · have : ns16550_out_loop (a :: rest) = CR :: LF :: ns16550_out_loop rest := by
        simp [ns16550_out_loop, ns16550_putc, h]
      rw [this]
      show (if CR = CR ∧ LF = LF then LF :: untranslate (ns16550_out_loop rest)
        else CR :: untranslate (LF :: ns16550_out_loop rest)) = a :: rest
      rw [if_pos ⟨rfl, rfl⟩, ih, h]
    · have hl : ns16550_out_loop (a :: rest) = a :: ns16550_out_loop rest := by
        simp [ns16550_out_loop, ns16550_putc, h]
      rw [hl]
      rcases out_loop_head_ne_lf rest with he | ⟨b, t, hbt, hb⟩
      · rw [he]
        rw [he] at ih
        show [a] = a :: rest
        rw [show rest = [] from by simpa using ih.symm]
      · rw [hbt]
        show (if a = CR ∧ b = LF then b :: untranslate t
          else a :: untranslate (b :: t)) = a :: rest
        rw [if_neg (by intro hab; exact hb hab.2), ← hbt, ih]

/-- Claim C8: for every buffer, the NS16550 driver's out transmits the
buffer's bytes in order as a wire stream in which each line-feed byte is
immediately preceded by an emitted carriage-return byte and all other
bytes are transmitted unchanged (removing the inserted carriage returns
recovers the buffer), and it returns exactly the input length. -/
theorem c8_ns16550_newline_translation (buf : List Nat) :
    (ns16550_out buf).2 = buf.length ∧
    crBeforeLf (ns16550_out buf).1 = true ∧
    untranslate (ns16550_out buf).1 = buf :=
  ⟨rfl, out_loop_crBeforeLf buf, out_loop_untranslate buf⟩

end UkConsole
